import Mathlib

/-!
Verification of the Magic Panels library (`Tools/MagicPanels/MagicPanels.py`
of the Woodworking workbench) against its natural-language specification.

The Python source operates on FreeCAD documents.  Numeric values (FreeCAD
floats) are embedded as exact rationals `ℚ`; document state is embedded as an
explicit list of objects; host calls that can raise are embedded either with
`Option` results or with an explicit control-flow semantics (see `PrimStmt`
below).  Each definition carries a comment naming the source lines it
translates.
-/

/-! ## Rounding and the `equal` comparison (MagicPanels.py lines 15, 27-53) -/

/-- Python `round` to an integer: round half to even (banker's rounding).
Used by `round(x, n)` and by `int(round(v, 0))` in `normalizeBoundBox`. -/
def pyRoundHalfEven (q : ℚ) : ℤ :=
  let f : ℤ := ⌊q⌋
  let r : ℚ := q - f
  if r < 1/2 then f
  else if 1/2 < r then f + 1
  else if f % 2 = 0 then f else f + 1

/-- Python `round(x, ndigits)` on exact rationals: scale by `10 ^ ndigits`,
round half to even, scale back. -/
def pyRound (ndigits : ℕ) (q : ℚ) : ℚ :=
  (pyRoundHalfEven (q * 10 ^ ndigits) : ℚ) / 10 ^ ndigits

/-- MagicPanels.py line 15: `gRoundPrecision = 2`. -/
def gRoundPrecision : ℕ := 2

/-- MagicPanels.py lines 27-53:
`return round(iA, gRoundPrecision) == round(iB, gRoundPrecision)`. -/
def equal (iA iB : ℚ) : Bool :=
  pyRound gRoundPrecision iA = pyRound gRoundPrecision iB

/-! ## getVertexAxisCross (MagicPanels.py lines 151-186) -/

/-- MagicPanels.py lines 151-186: the sign/order case chain computing the
distance between two axis values.  Conditions are translated in source
order (`iA >= 0 and iB >= 0 and iB > iA`, ...); the fall-through returns 0. -/
def getVertexAxisCross (iA iB : ℚ) : ℚ :=
  if 0 ≤ iA ∧ 0 ≤ iB ∧ iA < iB then iB - iA
  else if 0 ≤ iB ∧ 0 ≤ iA ∧ iB < iA then iA - iB
  else if iA < 0 ∧ 0 ≤ iB ∧ iA < iB then |iA| + iB
  else if iB < 0 ∧ 0 ≤ iA ∧ iB < iA then |iB| + iA
  else if iA < 0 ∧ iB ≤ 0 ∧ iA < iB then |iA| - |iB|
  else if iB < 0 ∧ iA ≤ 0 ∧ iB < iA then |iB| - |iA|
  else 0

/-! ## getModelRotation (MagicPanels.py lines 968-1177)

The view state is the view-direction vector `(x, y, z)` together with the
yaw/pitch/roll derived values `(px, py, pz)`; `px` is unpacked but unused by
the source.  The body first applies per-axis sign flips and then walks a
hand-enumerated table of 23 fully-assigning branches (plus the base state
"Z up, X rotate 0", which is the untouched default), later branches
overriding earlier ones, which the `let`-chain below reproduces exactly. -/

/-- MagicPanels.py lines 968-1177: `getModelRotation(iX, iY, iZ)` with the
view-state reads `x, y, z, py, pz` made explicit arguments. -/
def getModelRotation (x y z py pz iX iY iZ : ℚ) : ℚ × ℚ × ℚ :=
  -- axis inverts, lines 998-1008
  let mX := if 0 < x then -iX else iX
  let mY := if y < 0 then -iY else iY
  let mZ := if 0 < z then -iZ else iZ
  let p := (mX, mY, mZ)
  -- Z up, X rotate 1..3, lines 1020-1035
  let p := if x < 0 ∧ y < 0 ∧ z < 0 ∧ py < 0 ∧ 0 < pz then (-iY, iX, iZ) else p
  let p := if 0 < x ∧ y < 0 ∧ z < 0 ∧ py < 0 ∧ 0 < pz then (-iX, -iY, iZ) else p
  let p := if 0 < x ∧ 0 < y ∧ z < 0 ∧ py < 0 ∧ 0 < pz then (iY, -iX, iZ) else p
  -- Z down, X rotate 0..3, lines 1042-1063
  let p := if x < 0 ∧ y < 0 ∧ 0 < z ∧ 0 < py ∧ pz < 0 then (iX, -iY, -iZ) else p
  let p := if x < 0 ∧ 0 < y ∧ 0 < z ∧ 0 < py ∧ pz < 0 then (-iY, -iX, -iZ) else p
  let p := if 0 < x ∧ 0 < y ∧ 0 < z ∧ 0 < py ∧ pz < 0 then (-iX, iY, -iZ) else p
  let p := if 0 < x ∧ y < 0 ∧ 0 < z ∧ 0 < py ∧ pz < 0 then (iY, iX, -iZ) else p
  -- X up, Y rotate 0..3, lines 1070-1091
  let p := if x < 0 ∧ 0 < y ∧ 0 < z ∧ 0 < py ∧ 0 < pz then (iZ, iY, -iX) else p
  let p := if x < 0 ∧ y < 0 ∧ 0 < z ∧ py < 0 ∧ 0 < pz then (iZ, iX, iY) else p
  let p := if x < 0 ∧ y < 0 ∧ z < 0 ∧ py < 0 ∧ pz < 0 then (iZ, -iY, iX) else p
  let p := if x < 0 ∧ 0 < y ∧ z < 0 ∧ 0 < py ∧ pz < 0 then (iZ, -iX, -iY) else p
  -- X down, Y rotate 0..3, lines 1098-1119
  let p := if 0 < x ∧ 0 < y ∧ z < 0 ∧ py < 0 ∧ pz < 0 then (-iZ, iY, iX) else p
  let p := if 0 < x ∧ y < 0 ∧ z < 0 ∧ 0 < py ∧ pz < 0 then (-iZ, iX, -iY) else p
  let p := if 0 < x ∧ y < 0 ∧ 0 < z ∧ 0 < py ∧ 0 < pz then (-iZ, -iY, -iX) else p
  let p := if 0 < x ∧ 0 < y ∧ 0 < z ∧ py < 0 ∧ 0 < pz then (-iZ, -iX, iY) else p
  -- Y up, X rotate 0..3, lines 1126-1147
  let p := if x < 0 ∧ y < 0 ∧ z < 0 ∧ 0 < py ∧ pz < 0 then (iX, iZ, -iY) else p
  let p := if x < 0 ∧ y < 0 ∧ 0 < z ∧ 0 < py ∧ 0 < pz then (-iY, iZ, -iX) else p
  let p := if 0 < x ∧ y < 0 ∧ 0 < z ∧ py < 0 ∧ 0 < pz then (-iX, iZ, iY) else p
  let p := if 0 < x ∧ y < 0 ∧ z < 0 ∧ py < 0 ∧ pz < 0 then (iY, iZ, iX) else p
  -- Y down, X rotate 0..3, lines 1154-1175
  let p := if x < 0 ∧ 0 < y ∧ 0 < z ∧ py < 0 ∧ 0 < pz then (iX, -iZ, iY) else p
  let p := if x < 0 ∧ 0 < y ∧ z < 0 ∧ py < 0 ∧ pz < 0 then (-iY, -iZ, iX) else p
  let p := if 0 < x ∧ 0 < y ∧ z < 0 ∧ 0 < py ∧ pz < 0 then (-iX, -iZ, -iY) else p
  let p := if 0 < x ∧ 0 < y ∧ 0 < z ∧ 0 < py ∧ 0 < pz then (iY, -iZ, -iX) else p
  p

/-- Component access for an input vector `(iX, iY, iZ)`. -/
def vget (i : ℚ × ℚ × ℚ) : Fin 3 → ℚ
  | 0 => i.1
  | 1 => i.2.1
  | 2 => i.2.2

/-- `o` is a signed permutation of `i`: each output component is one of the
input components or its negation, and the three output components draw on
three distinct input components (each input coordinate used exactly once). -/
def IsSignedPerm3 (i o : ℚ × ℚ × ℚ) : Prop :=
  ∃ a b c : Fin 3, a ≠ b ∧ a ≠ c ∧ b ≠ c ∧
    (o.1 = vget i a ∨ o.1 = -vget i a) ∧
    (o.2.1 = vget i b ∨ o.2.1 = -vget i b) ∧
    (o.2.2 = vget i c ∨ o.2.2 = -vget i c)

/-- Sign condition for one view-state component: `true` requires the
component to be negative, `false` requires it to be positive. -/
def signCond : Bool → ℚ → Prop
  | true, v => v < 0
  | false, v => 0 < v

/-- A view-state sign pattern `(x<0?, y<0?, z<0?, py<0?, pz<0?)`. -/
abbrev ViewSigns := Bool × Bool × Bool × Bool × Bool

/-- The conjunction of the five sign conditions of a pattern, as tested
by one branch of `getModelRotation`. -/
def condHolds (s : ViewSigns) (x y z py pz : ℚ) : Prop :=
  signCond s.1 x ∧ signCond s.2.1 y ∧ signCond s.2.2.1 z ∧
    signCond s.2.2.2.1 py ∧ signCond s.2.2.2.2 pz

/-- The 23 explicit branch conditions of `getModelRotation` (lines
1020-1175), in source order, as sign patterns.  Together with the untouched
base state ("Z up, X rotate 0") they make up the 24 view orientations the
table distinguishes (6 up-axis choices times 4 rotations). -/
def rotationConds : List ViewSigns :=
  [ (true,  true,  true,  true,  false),   -- Z up 1
    (false, true,  true,  true,  false),   -- Z up 2
    (false, false, true,  true,  false),   -- Z up 3
    (true,  true,  false, false, true),    -- Z down 0
    (true,  false, false, false, true),    -- Z down 1
    (false, false, false, false, true),    -- Z down 2
    (false, true,  false, false, true),    -- Z down 3
    (true,  false, false, false, false),   -- X up 0
    (true,  true,  false, true,  false),   -- X up 1
    (true,  true,  true,  true,  true),    -- X up 2
    (true,  false, true,  false, true),    -- X up 3
    (false, false, true,  true,  true),    -- X down 0
    (false, true,  true,  false, true),    -- X down 1
    (false, true,  false, false, false),   -- X down 2
    (false, false, false, true,  false),   -- X down 3
    (true,  true,  true,  false, true),    -- Y up 0
    (true,  true,  false, false, false),   -- Y up 1
    (false, true,  false, true,  false),   -- Y up 2
    (false, true,  true,  true,  true),    -- Y up 3
    (true,  false, false, true,  false),   -- Y down 0
    (true,  false, true,  true,  true),    -- Y down 1
    (false, false, true,  false, true),    -- Y down 2
    (false, false, false, false, false) ]  -- Y down 3

/-- The output assignment of each explicit branch of `getModelRotation`,
keyed by its sign pattern (read off lines 1020-1175); patterns outside the
table return the input unchanged (unused here, the table is total on
`rotationConds`). -/
def rotationOut (s : ViewSigns) (i : ℚ × ℚ × ℚ) : ℚ × ℚ × ℚ :=
  match s, i with
  | (true,  true,  true,  true,  false), (iX, iY, iZ) => (-iY, iX, iZ)
  | (false, true,  true,  true,  false), (iX, iY, iZ) => (-iX, -iY, iZ)
  | (false, false, true,  true,  false), (iX, iY, iZ) => (iY, -iX, iZ)
  | (true,  true,  false, false, true),  (iX, iY, iZ) => (iX, -iY, -iZ)
  | (true,  false, false, false, true),  (iX, iY, iZ) => (-iY, -iX, -iZ)
  | (false, false, false, false, true),  (iX, iY, iZ) => (-iX, iY, -iZ)
  | (false, true,  false, false, true),  (iX, iY, iZ) => (iY, iX, -iZ)
  | (true,  false, false, false, false), (iX, iY, iZ) => (iZ, iY, -iX)
  | (true,  true,  false, true,  false), (iX, iY, iZ) => (iZ, iX, iY)
  | (true,  true,  true,  true,  true),  (iX, iY, iZ) => (iZ, -iY, iX)
  | (true,  false, true,  false, true),  (iX, iY, iZ) => (iZ, -iX, -iY)
  | (false, false, true,  true,  true),  (iX, iY, iZ) => (-iZ, iY, iX)
  | (false, true,  true,  false, true),  (iX, iY, iZ) => (-iZ, iX, -iY)
  | (false, true,  false, false, false), (iX, iY, iZ) => (-iZ, -iY, -iX)
  | (false, false, false, true,  false), (iX, iY, iZ) => (-iZ, -iX, iY)
  | (true,  true,  true,  false, true),  (iX, iY, iZ) => (iX, iZ, -iY)
  | (true,  true,  false, false, false), (iX, iY, iZ) => (-iY, iZ, -iX)
  | (false, true,  false, true,  false), (iX, iY, iZ) => (-iX, iZ, iY)
  | (false, true,  true,  true,  true),  (iX, iY, iZ) => (iY, iZ, iX)
  | (true,  false, false, true,  false), (iX, iY, iZ) => (iX, -iZ, iY)
  | (true,  false, true,  true,  true),  (iX, iY, iZ) => (-iY, -iZ, iX)
  | (false, false, true,  false, true),  (iX, iY, iZ) => (-iX, -iZ, -iY)
  | (false, false, false, false, false), (iX, iY, iZ) => (iY, -iZ, -iX)
  | _, (iX, iY, iZ) => (iX, iY, iZ)

/-! ## Bounding boxes, normalizeBoundBox and key lookups
(MagicPanels.py lines 81-115, 302-331, 372-410) -/

/-- A FreeCAD `BoundBox`: the six coordinates used by the library. -/
structure BoundBox where
  xMin : ℚ
  yMin : ℚ
  zMin : ℚ
  xMax : ℚ
  yMax : ℚ
  zMax : ℚ

/-- MagicPanels.py lines 81-115: `normalizeBoundBox`.  Each coordinate goes
through `int(round(v, 0))`, i.e. rounding half to even to an integer, and is
rendered in the string `"BoundBox (x1, y1, z1, x2, y2, z2)"`. -/
def normalizeBoundBox (iBoundBox : BoundBox) : String :=
  "BoundBox (" ++
    toString (pyRoundHalfEven iBoundBox.xMin) ++ ", " ++
    toString (pyRoundHalfEven iBoundBox.yMin) ++ ", " ++
    toString (pyRoundHalfEven iBoundBox.zMin) ++ ", " ++
    toString (pyRoundHalfEven iBoundBox.xMax) ++ ", " ++
    toString (pyRoundHalfEven iBoundBox.yMax) ++ ", " ++
    toString (pyRoundHalfEven iBoundBox.zMax) ++ ")"

/-- MagicPanels.py lines 396-403: the normalization string that
`getFaceIndexByKey` builds inline for each candidate face. -/
def faceKeyString (bb : BoundBox) : String :=
  "BoundBox (" ++
    toString (pyRoundHalfEven bb.xMin) ++ ", " ++
    toString (pyRoundHalfEven bb.yMin) ++ ", " ++
    toString (pyRoundHalfEven bb.zMin) ++ ", " ++
    toString (pyRoundHalfEven bb.xMax) ++ ", " ++
    toString (pyRoundHalfEven bb.yMax) ++ ", " ++
    toString (pyRoundHalfEven bb.zMax) ++ ")"

/-- The 1-based search loop shared by `getEdgeIndexByKey` and
`getFaceIndexByKey`: return the running index of the first element matching
the predicate, `-1` if none matches. -/
def findKeyIndex (p : BoundBox → Bool) : ℤ → List BoundBox → ℤ
  | _, [] => -1
  | idx, e :: rest => if p e then idx else findKeyIndex p (idx + 1) rest

/-- MagicPanels.py lines 302-331: `getEdgeIndexByKey` compares
`normalizeBoundBox(e.BoundBox) == normalizeBoundBox(iBoundBox)` for each edge
of the object (here: the object's list of edge bounding boxes). -/
def getEdgeIndexByKey (objEdges : List BoundBox) (iBoundBox : BoundBox) : ℤ :=
  findKeyIndex (fun e => decide (normalizeBoundBox e = normalizeBoundBox iBoundBox)) 1 objEdges

/-- Decimal digits of the fractional part `0 ≤ q < 1` of a rational with a
terminating decimal expansion (fuel-bounded; all uses are concrete). -/
def ratFracDigits : ℕ → ℚ → String
  | 0, _ => ""
  | fuel + 1, q =>
    if q = 0 then ""
    else
      let d : ℤ := ⌊q * 10⌋
      toString d ++ ratFracDigits fuel (q * 10 - d)

/-- Decimal rendering of a non-negative rational, integer part then
fractional digits, no decimal point for integers. -/
def ratReprOfNonneg (q : ℚ) : String :=
  if q - ⌊q⌋ = 0 then toString (⌊q⌋ : ℤ)
  else toString (⌊q⌋ : ℤ) ++ "." ++ ratFracDigits 12 (q - ⌊q⌋)

/-- Decimal rendering of a rational number, e.g. `0.4`, `-2`, `100`. -/
def ratRepr (q : ℚ) : String :=
  if q < 0 then "-" ++ ratReprOfNonneg (-q) else ratReprOfNonneg q

/-- Modelled from the spec: the host's `str(iBoundBox)` string used on the
key side of the comparison in `getFaceIndexByKey` (line 405,
`if c == str(iBoundBox)`).  The `BoundBox` representation is host (FreeCAD)
code missing from this repository: it prints
`"BoundBox (x1, y1, z1, x2, y2, z2)"` with each coordinate as an unrounded
decimal numeral (integral values without a decimal point). -/
def pyStrBoundBox (b : BoundBox) : String :=
  "BoundBox (" ++
    ratRepr b.xMin ++ ", " ++
    ratRepr b.yMin ++ ", " ++
    ratRepr b.zMin ++ ", " ++
    ratRepr b.xMax ++ ", " ++
    ratRepr b.yMax ++ ", " ++
    ratRepr b.zMax ++ ")"

/-- MagicPanels.py lines 372-410: `getFaceIndexByKey` builds the
normalization string `c` inline for each candidate face but compares it with
the raw `str(iBoundBox)` of the key, not with the key's normalization. -/
def getFaceIndexByKey (objFaces : List BoundBox) (iBoundBox : BoundBox) : ℤ :=
  findKeyIndex (fun e => decide (faceKeyString e = pyStrBoundBox iBoundBox)) 1 objFaces

/-- 0-based position of the first element matching a predicate. -/
def firstMatchIdx (p : BoundBox → Bool) : List BoundBox → Option ℕ
  | [] => none
  | e :: rest => if p e then some 0 else (firstMatchIdx p rest).map (· + 1)

/-- Specification-side formulation of the edge lookup: the 1-based index of
the first edge whose normalized bounding box equals the key's normalized
bounding box, `-1` when no edge matches. -/
def edgeIndexSpec (objEdges : List BoundBox) (iBoundBox : BoundBox) : ℤ :=
  match firstMatchIdx
      (fun e => decide (normalizeBoundBox e = normalizeBoundBox iBoundBox)) objEdges with
  | some n => (n : ℤ) + 1
  | none => -1

/-! ## sizesToCubePanel (MagicPanels.py lines 1376-1448) -/

/-- The three object shapes `sizesToCubePanel` reads sizes from: a
`Part::Box` via `Length/Width/Height`, a `PartDesign::Pad` via the sketch
constraints named `SizeX`/`SizeY` plus its `Length`, and a custom object via
`Base_Length/Base_Width/Base_Height`. -/
inductive WObj where
  | box (length width height : ℚ)
  | pad (constraints : List (String × ℚ)) (length : ℚ)
  | custom (baseLength baseWidth baseHeight : ℚ)

/-- The Python loop `for c in iObj.Profile[0].Constraints: if c.Name == nm:
v = c.Value` keeps the last matching constraint; `none` when the name never
occurs (the Python code would raise `NameError`). -/
def lastNamed (cs : List (String × ℚ)) (nm : String) : Option ℚ :=
  cs.foldl (fun acc c => if c.1 = nm then some c.2 else acc) none

/-- MagicPanels.py lines 1398-1414: the pre-sort size list of
`sizesToCubePanel` for each object kind (`[Length, Width, Height]` for a box,
`[Length, SizeX, SizeY]` for a pad, `[Base_Length, Base_Width, Base_Height]`
for a custom object). -/
def rawSizes : WObj → Option (List ℚ)
  | .box l w h => some [l, w, h]
  | .pad cs len =>
    match lastNamed cs "SizeX", lastNamed cs "SizeY" with
    | some sx, some sy => some [len, sx, sy]
    | _, _ => none
  | .custom bl bw bh => some [bl, bw, bh]

/-- Insertion into an ascending list, the building block of the embedding of
Python's in-place ascending `list.sort()`. -/
def insertSorted (a : ℚ) : List ℚ → List ℚ
  | [] => [a]
  | b :: t => if a ≤ b then a :: b :: t else b :: insertSorted a t

/-- Python `sizes.sort()`: ascending sort. -/
def sortRats (l : List ℚ) : List ℚ := l.foldr insertSorted []

/-- MagicPanels.py lines 1376-1448: `sizesToCubePanel`.  After sorting, each
direction assigns the sorted sizes `s[0] ≤ s[1] ≤ s[2]` to the
`[Length, Width, Height]` slots in a fixed pattern; a direction outside the
six known ones leaves the result variables unbound (`NameError`), hence
`none`. -/
def sizesToCubePanel (iObj : WObj) (iType : String) : Option (List ℚ) :=
  match rawSizes iObj with
  | none => none
  | some sizes =>
    let s := sortRats sizes
    if iType = "XY" then do
      let a ← s.get? 2; let b ← s.get? 1; let c ← s.get? 0; pure [a, b, c]
    else if iType = "YX" then do
      let a ← s.get? 1; let b ← s.get? 2; let c ← s.get? 0; pure [a, b, c]
    else if iType = "XZ" then do
      let a ← s.get? 2; let b ← s.get? 0; let c ← s.get? 1; pure [a, b, c]
    else if iType = "ZX" then do
      let a ← s.get? 1; let b ← s.get? 0; let c ← s.get? 2; pure [a, b, c]
    else if iType = "YZ" then do
      let a ← s.get? 0; let b ← s.get? 2; let c ← s.get? 1; pure [a, b, c]
    else if iType = "ZY" then do
      let a ← s.get? 0; let b ← s.get? 1; let c ← s.get? 2; pure [a, b, c]
    else none

/-- Specification-side arrangement of the ascending sizes `s0 ≤ s1 ≤ s2`
into `[Length, Width, Height]` for each direction. -/
def cubeArrangement (iType : String) (s0 s1 s2 : ℚ) : List ℚ :=
  if iType = "XY" then [s2, s1, s0]
  else if iType = "YX" then [s1, s2, s0]
  else if iType = "XZ" then [s2, s0, s1]
  else if iType = "ZX" then [s1, s0, s2]
  else if iType = "YZ" then [s0, s2, s1]
  else [s0, s1, s2]

/-! ## Document model (for panelDefault, panel2pad, equal as a query)

The document is the host-owned list of named objects.  `dims` models the
`Length/Width/Height` properties of a `Part::Box` (and is carried unused by
non-box objects). -/

/-- A document object: host name, host type tag, box dimensions. -/
structure DocObj where
  name : String
  otype : String
  dims : ℚ × ℚ × ℚ
deriving DecidableEq

/-- A FreeCAD document: the list of its objects, in creation order. -/
abbrev Doc := List DocObj

/-- The names present in a document. -/
def namesOfDoc (doc : Doc) : List String := doc.map (fun ob => ob.name)

/-- `equal` threaded through the document state: the source function
(lines 27-53) reads no document object and performs no host call, so it
returns its value with the document untouched. -/
def equalSt (doc : Doc) (iA iB : ℚ) : Bool × Doc := (equal iA iB, doc)

/-- MagicPanels.py lines 2034-2064: the dimensions `panelDefault` assigns
for each direction.  `addObject("Part::Box", ...)` creates the host default
10 x 10 x 10 box, and each `if` overwrites all three sizes. -/
def panelDefaultDims (iType : String) : ℚ × ℚ × ℚ :=
  let d : ℚ × ℚ × ℚ := (10, 10, 10)
  let d := if iType = "XY" then ((600 : ℚ), (300 : ℚ), (18 : ℚ)) else d
  let d := if iType = "YX" then ((300 : ℚ), (600 : ℚ), (18 : ℚ)) else d
  let d := if iType = "XZ" then ((600 : ℚ), (18 : ℚ), (300 : ℚ)) else d
  let d := if iType = "ZX" then ((300 : ℚ), (18 : ℚ), (600 : ℚ)) else d
  let d := if iType = "YZ" then ((18 : ℚ), (600 : ℚ), (300 : ℚ)) else d
  let d := if iType = "ZY" then ((18 : ℚ), (300 : ℚ), (600 : ℚ)) else d
  d

/-- MagicPanels.py lines 2032-2066: the document effect of `panelDefault`'s
body: add one `Part::Box` named `"panel" + iType` with the direction's
dimensions, then recompute (no further document change). -/
def panelDefaultDoc (doc : Doc) (iType : String) : Doc :=
  doc ++ [⟨"panel" ++ iType, "Part::Box", panelDefaultDims iType⟩]

/-- `FreeCAD.ActiveDocument.removeObject(n)`: drop the object named `n`. -/
def removeObjectDoc (doc : Doc) (n : String) : Doc :=
  doc.filter (fun ob => decide (ob.name ≠ n))

/-- MagicPanels.py lines 1506-1612 (`makePad`), at the document level: adds
the host-instantiated `App::Part`, `PartDesign::Body`,
`Sketcher::SketchObject` and `PartDesign::Pad` objects (host-chosen names
passed as arguments) and recomputes. -/
def makePadDoc (doc : Doc) (partName bodyName sketchName padName : String) : Doc :=
  doc ++
    [⟨partName, "App::Part", (0, 0, 0)⟩,
     ⟨bodyName, "PartDesign::Body", (0, 0, 0)⟩,
     ⟨sketchName, "Sketcher::SketchObject", (0, 0, 0)⟩,
     ⟨padName, "PartDesign::Pad", (0, 0, 0)⟩]

/-- MagicPanels.py lines 2825-2834 (`panel2pad` body): `makePad` on the
selected object, then `removeObject(gObj.Name)`, then recompute. -/
def panel2padDoc (doc : Doc) (selName partName bodyName sketchName padName : String) : Doc :=
  removeObjectDoc (makePadDoc doc partName bodyName sketchName padName) selName

/-! ## Control-flow model of the public entry points
(MagicPanels.py lines 2011-3670)

Every public entry point in the source is a single `try:` block wrapping its
whole body, with a bare `except:` whose only effect is building a static
translated text and calling `showInfo` once.  The body is embedded as a
sequence of primitive host steps, each of which may raise (an oracle decides
which step raises, covering every possible exception in every host state).
Loops whose iterations neither read the selection nor precede a selection
read are unrolled to a representative iteration count, which is sound for
the catch-all and read-ordering properties proved here; the one loop that
does read the selection once per iteration — the first loop of
`panel2frame` — is kept exact for every selection size via the parametric
`panel2frameBody`, whose two-object instance is the fixed entry body. -/

/-- One primitive step of an entry-point body: a selection query
(`getSelection`/`getSelectionEx`), a selection clear, a read of document
objects or host geometry, a document mutation (`addObject`, `removeObject`,
property assignment, `setPlacement`, `recompute`), or a conditional `raise`
statement of the source.  Any step may raise. -/
inductive PrimStmt where
  | selRead
  | selClear
  | hostRead
  | docMut
  | condRaise
deriving DecidableEq

/-- A public entry point: its name, the primitive steps of its `try:` body,
and the static message its `except:` handler passes to `showInfo`. -/
structure EntryPoint where
  name : String
  body : List PrimStmt
  errMsg : String
deriving DecidableEq

/-- A statement of the embedded language: a bare primitive step (raises
uncaught) or a `try`/`except` block whose handler only shows one static
message. -/
inductive Stmt where
  | prim (p : PrimStmt)
  | tryCatch (body : List PrimStmt) (handlerMsg : String)

/-- Execution state: next oracle position, executed primitive steps, and
the messages shown so far. -/
structure ExecSt where
  pos : ℕ
  trace : List PrimStmt
  msgs : List String

/-- Run a sequence of primitive steps; the oracle decides which step
raises.  Returns the state after the executed prefix and whether a step
raised. -/
def runPrims (o : ℕ → Bool) : List PrimStmt → ExecSt → ExecSt × Bool
  | [], st => (st, false)
  | p :: rest, st =>
    let st2 : ExecSt := ⟨st.pos + 1, st.trace ++ [p], st.msgs⟩
    if o st.pos then (st2, true) else runPrims o rest st2

/-- Run statements with Python exception semantics: an uncaught raise stops
execution and is reported in the boolean; `tryCatch` absorbs a raise from
its body and shows the static handler message. -/
def runStmts (o : ℕ → Bool) : List Stmt → ExecSt → ExecSt × Bool
  | [], st => (st, false)
  | .prim p :: rest, st =>
    let st2 : ExecSt := ⟨st.pos + 1, st.trace ++ [p], st.msgs⟩
    if o st.pos then (st2, true) else runStmts o rest st2
  | .tryCatch body m :: rest, st =>
    let r := runPrims o body st
    if r.2 then runStmts o rest ⟨r.1.pos, r.1.trace, r.1.msgs ++ [m]⟩
    else runStmts o rest r.1

/-- The statement list of a public entry point: one `try`/`except` block
around the whole body, handler showing the static message. -/
def entryStmts (ep : EntryPoint) : List Stmt := [.tryCatch ep.body ep.errMsg]

/-- MagicPanels.py 2011-2074: `panelDefault` — addObject, six dimension
branches, recompute. -/
def panelDefault : EntryPoint :=
  ⟨"panelDefault", [.docMut, .docMut, .docMut], "panelDefaultInfo"⟩

/-- MagicPanels.py 2078-2116: `panelCopy` — `getReference()` (selection
read), `sizesToCubePanel`, addObject, size assignment, recompute. -/
def panelCopy : EntryPoint :=
  ⟨"panelCopy", [.selRead, .hostRead, .hostRead, .docMut, .docMut, .docMut], "panelCopyInfo"⟩

/-- MagicPanels.py 2120-2187: `panelMove` — `getReference()`, `getSizes`,
`convertPosition`, `getModelRotation`, `getPlacement`, `setPlacement`,
recompute. -/
def panelMove : EntryPoint :=
  ⟨"panelMove",
    [.selRead, .hostRead, .hostRead, .hostRead, .hostRead, .hostRead, .docMut, .docMut],
    "panelMoveInfo"⟩

/-- MagicPanels.py 2191-2266: `panelMove2Face` — `getSelection()`, length
guard (`raise`), re-reads `getSelection()[0]` and `getSelectionEx()[0]` in
the first loop iteration, then per remaining object `getReference`,
`getPlacement`, `setPlacement`, recompute (one representative iteration). -/
def panelMove2Face : EntryPoint :=
  ⟨"panelMove2Face",
    [.selRead, .condRaise, .selRead, .selRead, .hostRead, .hostRead,
     .hostRead, .hostRead, .docMut, .docMut],
    "panelMove2FaceInfo"⟩

/-- MagicPanels.py 2270-2480: `panelResize` — `getReference()`, `getSizes`,
dimension updates, recompute. -/
def panelResize : EntryPoint :=
  ⟨"panelResize", [.selRead, .hostRead, .docMut, .docMut], "panelResizeInfo"⟩

/-- MagicPanels.py 2484-2534: `panelFace` — `getSelection()[0]`,
`getReference(gSO)`, `getSelectionEx()[0]`, `sizesToCubePanel`, `getVertex`,
addObject, sizes, placement, recompute. -/
def panelFace : EntryPoint :=
  ⟨"panelFace",
    [.selRead, .hostRead, .selRead, .hostRead, .hostRead, .docMut, .docMut, .docMut, .docMut],
    "panelFaceInfo"⟩

/-- MagicPanels.py 2538-2597: `panelBetween` — `getSelection()[0]`,
`getReference`, two `getSelectionEx()` reads, two `getVertex`, addObject,
`sizesToCubePanel` assignment, placement, recompute. -/
def panelBetween : EntryPoint :=
  ⟨"panelBetween",
    [.selRead, .hostRead, .selRead, .selRead, .hostRead, .hostRead,
     .docMut, .hostRead, .docMut, .docMut, .docMut],
    "panelBetweenInfo"⟩

/-- MagicPanels.py 2601-2679: `panelSide` — `getReference()`,
`getSelectionEx()[0]`, `sizesToCubePanel`, `getVertex`, addObject, sizes,
placement, recompute. -/
def panelSide : EntryPoint :=
  ⟨"panelSide",
    [.selRead, .hostRead, .selRead, .hostRead, .hostRead, .docMut, .docMut, .docMut, .docMut],
    "panelSideInfo"⟩

/-- MagicPanels.py 2683-2741: `panelBackOut` — `getReference()`, three
`getSelectionEx()` reads, `sizesToCubePanel`, three `getVertex`, guard
(`raise` in the `else`), addObject, sizes, placement, recompute. -/
def panelBackOut : EntryPoint :=
  ⟨"panelBackOut",
    [.selRead, .hostRead, .selRead, .selRead, .selRead, .hostRead, .hostRead,
     .hostRead, .hostRead, .condRaise, .docMut, .docMut, .docMut, .docMut],
    "panelBackOutInfo"⟩

/-- MagicPanels.py 2745-2799: `panelCover` — `getReference()`, three
`getSelectionEx()` reads, `sizesToCubePanel`, three `getVertex`, guarded
addObject, sizes, placement, recompute. -/
def panelCover : EntryPoint :=
  ⟨"panelCover",
    [.selRead, .hostRead, .selRead, .selRead, .selRead, .hostRead, .hostRead,
     .hostRead, .hostRead, .docMut, .docMut, .docMut, .docMut],
    "panelCoverInfo"⟩

/-- MagicPanels.py 2803-2842: `panel2pad` — `getSelection()[0]`, `makePad`
(reads then object creations and recompute), `removeObject`, recompute. -/
def panel2pad : EntryPoint :=
  ⟨"panel2pad",
    [.selRead, .hostRead, .docMut, .docMut, .docMut, .docMut, .docMut, .docMut],
    "panel2padInfo"⟩

/-- MagicPanels.py 2846-2932: `panel2profile` — `getSelection()`, emptiness
guard (`raise`), per object: `getSizes`, size guard (`raise`), `makePad`,
`removeObject`, recompute, Thickness creation, recompute (one representative
iteration). -/
def panel2profile : EntryPoint :=
  ⟨"panel2profile",
    [.selRead, .condRaise, .hostRead, .condRaise, .docMut, .docMut, .docMut,
     .docMut, .docMut, .docMut],
    "panel2profileInfo"⟩

/-- MagicPanels.py 2976-3019: the second loop of `panel2frame`, per
selected object — `getSizes`/`getFaceEdges` reads, `makePad`,
`removeObject`, recompute, `getEdgeIndexByKey` read, Chamfer creation and
colors, recompute.  It performs no selection read. -/
def panel2frameLoop : List PrimStmt :=
  [.hostRead, .hostRead, .docMut, .docMut, .docMut, .hostRead, .docMut, .docMut]

/-- MagicPanels.py 2936-3029: the body of `panel2frame` for `n` selected
objects — `getSelection()`, emptiness guard (`raise`), then the first loop
reads `getSelectionEx()[i]` once per selected object (lines 2971-2974, so
`1 + n` selection reads in total), then the second loop runs
`panel2frameLoop` once per object.  This body is exact for every selection
size `n`. -/
def panel2frameBody (n : ℕ) : List PrimStmt :=
  [.selRead, .condRaise] ++ List.replicate n PrimStmt.selRead ++
    List.flatten (List.replicate n panel2frameLoop)

/-- MagicPanels.py 2936-3029: `panel2frame` as an entry point; its body is
the two-selected-objects instance of the exact parametric body
`panel2frameBody`. -/
def panel2frame : EntryPoint :=
  ⟨"panel2frame", panel2frameBody 2, "panel2frameInfo"⟩

/-- MagicPanels.py 3033-3100: `panel2link` — `getSelection()`, length guard
(`raise`), per non-base object: addObject link, `getPlacement`,
`setPlacement`, `removeObject`, recompute (one representative iteration). -/
def panel2link : EntryPoint :=
  ⟨"panel2link",
    [.selRead, .condRaise, .docMut, .hostRead, .docMut, .docMut, .docMut],
    "panel2linkInfo"⟩

/-- MagicPanels.py 3104-3168: `drillHoles` — `getSelection()[0]`,
`getSelectionEx()[0]`, `getSelection()` again (three selection reads), then
the `makeHoles` path: geometry reads and hole creations. -/
def drillHoles : EntryPoint :=
  ⟨"drillHoles",
    [.selRead, .selRead, .selRead, .hostRead, .docMut, .docMut, .docMut],
    "drillHolesInfo"⟩

/-- MagicPanels.py 3172-3240: `drillCountersinks` — same selection pattern
as `drillHoles`, then `makeCountersinks`. -/
def drillCountersinks : EntryPoint :=
  ⟨"drillCountersinks",
    [.selRead, .selRead, .selRead, .hostRead, .docMut, .docMut, .docMut],
    "drillCountersinksInfo"⟩

/-- MagicPanels.py 3244-3312: `drillCounterbores` — same selection pattern
as `drillHoles`, then `makeCounterbores`. -/
def drillCounterbores : EntryPoint :=
  ⟨"drillCounterbores",
    [.selRead, .selRead, .selRead, .hostRead, .docMut, .docMut, .docMut],
    "drillCounterboresInfo"⟩

/-- MagicPanels.py 3316-3393: `sketch2dowel` — `getSelection()`, length
guard, `getSelectionEx()[0]`, per sketch: type guard, hole lookup, guard,
placement read, addObject, properties, `setPlacement` (one representative
iteration). -/
def sketch2dowel : EntryPoint :=
  ⟨"sketch2dowel",
    [.selRead, .condRaise, .selRead, .condRaise, .hostRead, .condRaise,
     .hostRead, .docMut, .docMut, .docMut],
    "sketch2dowelInfo"⟩

/-- MagicPanels.py 3397-3456: `edge2dowel` — `getSelectionEx()[0]`,
emptiness guard, per edge: curve guard, curve reads, addObject, properties,
`setPlacement` (one representative iteration). -/
def edge2dowel : EntryPoint :=
  ⟨"edge2dowel",
    [.selRead, .condRaise, .condRaise, .hostRead, .docMut, .docMut, .docMut],
    "edge2dowelInfo"⟩

/-- MagicPanels.py 3460-3523: `edge2drillbit` — same pattern as
`edge2dowel`. -/
def edge2drillbit : EntryPoint :=
  ⟨"edge2drillbit",
    [.selRead, .condRaise, .condRaise, .hostRead, .docMut, .docMut, .docMut],
    "edge2drillbitInfo"⟩

/-- MagicPanels.py 3527-3567: `magicCut` — `getSelection()`, length guard,
`makeCuts` (copyObject, addObject Cut, recompute, relabel), then
`clearSelection` (a selection write, not a read). -/
def magicCut : EntryPoint :=
  ⟨"magicCut",
    [.selRead, .condRaise, .docMut, .docMut, .docMut, .docMut, .selClear],
    "magicCutInfo"⟩

/-- MagicPanels.py 3571-3617: `jointTenon` — `getReference()`,
`getSelectionEx()[0]`, addObject, sizes, `getFaceVertices`,
`getFaceObjectRotation`, `setPlacement`. -/
def jointTenon : EntryPoint :=
  ⟨"jointTenon",
    [.selRead, .hostRead, .selRead, .docMut, .docMut, .hostRead, .hostRead, .docMut],
    "jointTenonInfo"⟩

/-- MagicPanels.py 3620-3670: `jointCustom` — as `jointTenon`, then
`makePad`, `removeObject` of the temporary box, recompute. -/
def jointCustom : EntryPoint :=
  ⟨"jointCustom",
    [.selRead, .hostRead, .selRead, .docMut, .docMut, .hostRead, .hostRead,
     .docMut, .docMut, .docMut, .docMut],
    "jointCustomInfo"⟩

/-- The 23 public entry points of MagicPanels.py (lines 2011-3670), in
source order. -/
def magicPanelsEntryPoints : List EntryPoint :=
  [panelDefault, panelCopy, panelMove, panelMove2Face, panelResize,
   panelFace, panelBetween, panelSide, panelBackOut, panelCover,
   panel2pad, panel2profile, panel2frame, panel2link,
   drillHoles, drillCountersinks, drillCounterbores,
   sketch2dowel, edge2dowel, edge2drillbit,
   magicCut, jointTenon, jointCustom]

/-- Number of selection reads in a step sequence. -/
def countSelReads (l : List PrimStmt) : ℕ := l.count .selRead

/-- `true` when no selection read occurs after a document mutation. -/
def selReadsPrecedeMut : List PrimStmt → Bool
  | [] => true
  | p :: rest =>
    if p = PrimStmt.docMut then !(rest.contains PrimStmt.selRead)
    else selReadsPrecedeMut rest

/-! # Theorems -/

/-! ## Helper lemmas -/

/-- Evaluation rule for `pyRound` away from ties: if `z` is the floor of
the scaled value and the fractional part is below one half, `pyRound`
truncates to `z`. -/
theorem pyRound_eq_of_floor (n : ℕ) (q : ℚ) (z : ℤ)
    (h1 : (z : ℚ) ≤ q * 10 ^ n) (h2 : q * 10 ^ n < (z : ℚ) + 1)
    (h3 : q * 10 ^ n - (z : ℚ) < 1/2) :
    pyRound n q = (z : ℚ) / 10 ^ n := by
  have hf : ⌊q * 10 ^ n⌋ = z := by
    rw [Int.floor_eq_iff]
    exact ⟨h1, h2⟩
  unfold pyRound pyRoundHalfEven
  rw [hf, if_pos h3]

/-- `getVertexAxisCross` computes the absolute difference. -/
theorem getVertexAxisCross_eq_abs (a b : ℚ) : getVertexAxisCross a b = |b - a| := by
  unfold getVertexAxisCross
  split_ifs with h1 h2 h3 h4 h5 h6
  · obtain ⟨-, -, hab⟩ := h1
    rw [abs_of_pos (by linarith)]
  · obtain ⟨-, -, hba⟩ := h2
    rw [abs_of_nonpos (by linarith)]
    ring
  · obtain ⟨ha, -, hab⟩ := h3
    rw [abs_of_neg ha, abs_of_pos (by linarith)]
    ring
  · obtain ⟨hb, -, hba⟩ := h4
    rw [abs_of_neg hb, abs_of_nonpos (by linarith)]
    ring
  · obtain ⟨ha, hb, hab⟩ := h5
    rw [abs_of_neg ha, abs_of_nonpos hb, abs_of_pos (by linarith)]
    ring
  · obtain ⟨hb, ha, hba⟩ := h6
    rw [abs_of_neg hb, abs_of_nonpos ha, abs_of_nonpos (by linarith)]
    ring
  · push_neg at h1 h2 h3 h4 h5 h6
    have hab : a = b := by
      rcases lt_trichotomy a b with h | h | h
      · rcases le_or_lt 0 a with ha | ha
        · have := h1 ha (le_trans ha h.le)
          linarith
        · rcases le_or_lt 0 b with hb | hb
          · have := h3 ha hb
            linarith
          · have := h5 ha hb.le
            linarith
      · exact h
      · rcases le_or_lt 0 b with hb | hb
        · have := h2 hb (le_trans hb h.le)
          linarith
        · rcases le_or_lt 0 a with ha | ha
          · have := h4 hb ha
            linarith
          · have := h6 hb ha.le
            linarith
    rw [hab]
    simp

/-- An `ite` of two signed permutations of `i` is a signed permutation. -/
theorem signedPerm_ite (c : Prop) [Decidable c] (i a b : ℚ × ℚ × ℚ)
    (ha : IsSignedPerm3 i a) (hb : IsSignedPerm3 i b) :
    IsSignedPerm3 i (if c then a else b) := by
  by_cases h : c <;> simp [h, ha, hb]

/-- Every branch of `getModelRotation`, including the default axis-invert
state, produces a signed permutation of the input. -/
theorem getModelRotation_isSignedPerm (x y z py pz iX iY iZ : ℚ) :
    IsSignedPerm3 (iX, iY, iZ) (getModelRotation x y z py pz iX iY iZ) := by
  simp only [getModelRotation]
  apply signedPerm_ite
  · exact ⟨1, 2, 0, by decide, by decide, by decide, Or.inl rfl, Or.inr rfl, Or.inr rfl⟩
  apply signedPerm_ite
  · exact ⟨0, 2, 1, by decide, by decide, by decide, Or.inr rfl, Or.inr rfl, Or.inr rfl⟩
  apply signedPerm_ite
  · exact ⟨1, 2, 0, by decide, by decide, by decide, Or.inr rfl, Or.inr rfl, Or.inl rfl⟩
  apply signedPerm_ite
  · exact ⟨0, 2, 1, by decide, by decide, by decide, Or.inl rfl, Or.inr rfl, Or.inl rfl⟩
  apply signedPerm_ite
  · exact ⟨1, 2, 0, by decide, by decide, by decide, Or.inl rfl, Or.inl rfl, Or.inl rfl⟩
  apply signedPerm_ite
  · exact ⟨0, 2, 1, by decide, by decide, by decide, Or.inr rfl, Or.inl rfl, Or.inl rfl⟩
  apply signedPerm_ite
  · exact ⟨1, 2, 0, by decide, by decide, by decide, Or.inr rfl, Or.inl rfl, Or.inr rfl⟩
  apply signedPerm_ite
  · exact ⟨0, 2, 1, by decide, by decide, by decide, Or.inl rfl, Or.inl rfl, Or.inr rfl⟩
  apply signedPerm_ite
  · exact ⟨2, 0, 1, by decide, by decide, by decide, Or.inr rfl, Or.inr rfl, Or.inl rfl⟩
  apply signedPerm_ite
  · exact ⟨2, 1, 0, by decide, by decide, by decide, Or.inr rfl, Or.inr rfl, Or.inr rfl⟩
  apply signedPerm_ite
  · exact ⟨2, 0, 1, by decide, by decide, by decide, Or.inr rfl, Or.inl rfl, Or.inr rfl⟩
  apply signedPerm_ite
  · exact ⟨2, 1, 0, by decide, by decide, by decide, Or.inr rfl, Or.inl rfl, Or.inl rfl⟩
  apply signedPerm_ite
  · exact ⟨2, 0, 1, by decide, by decide, by decide, Or.inl rfl, Or.inr rfl, Or.inr rfl⟩
  apply signedPerm_ite
  · exact ⟨2, 1, 0, by decide, by decide, by decide, Or.inl rfl, Or.inr rfl, Or.inl rfl⟩
  apply signedPerm_ite
  · exact ⟨2, 0, 1, by decide, by decide, by decide, Or.inl rfl, Or.inl rfl, Or.inl rfl⟩
  apply signedPerm_ite
  · exact ⟨2, 1, 0, by decide, by decide, by decide, Or.inl rfl, Or.inl rfl, Or.inr rfl⟩
  apply signedPerm_ite
  · exact ⟨1, 0, 2, by decide, by decide, by decide, Or.inl rfl, Or.inl rfl, Or.inr rfl⟩
  apply signedPerm_ite
  · exact ⟨0, 1, 2, by decide, by decide, by decide, Or.inr rfl, Or.inl rfl, Or.inr rfl⟩
  apply signedPerm_ite
  · exact ⟨1, 0, 2, by decide, by decide, by decide, Or.inr rfl, Or.inr rfl, Or.inr rfl⟩
  apply signedPerm_ite
  · exact ⟨0, 1, 2, by decide, by decide, by decide, Or.inl rfl, Or.inr rfl, Or.inr rfl⟩
  apply signedPerm_ite
  · exact ⟨1, 0, 2, by decide, by decide, by decide, Or.inl rfl, Or.inr rfl, Or.inl rfl⟩
  apply signedPerm_ite
  · exact ⟨0, 1, 2, by decide, by decide, by decide, Or.inr rfl, Or.inr rfl, Or.inl rfl⟩
  apply signedPerm_ite
  · exact ⟨1, 0, 2, by decide, by decide, by decide, Or.inr rfl, Or.inl rfl, Or.inl rfl⟩
  refine ⟨0, 1, 2, by decide, by decide, by decide, ?_, ?_, ?_⟩
  · by_cases h : 0 < x <;> simp [h, vget]
  · by_cases h : y < 0 <;> simp [h, vget]
  · by_cases h : 0 < z <;> simp [h, vget]

/-- When the view-state signs match a table pattern, `getModelRotation`
returns exactly that pattern's output assignment. -/
theorem getModelRotation_matches_table :
    ∀ s ∈ rotationConds, ∀ x y z py pz iX iY iZ : ℚ,
      condHolds s x y z py pz →
        getModelRotation x y z py pz iX iY iZ = rotationOut s (iX, iY, iZ) := by
  intro s hs
  fin_cases hs <;>
    · intro x y z py pz iX iY iZ h
      simp only [condHolds, signCond] at h
      obtain ⟨hx, hy, hz, hp, hq⟩ := h
      simp [getModelRotation, rotationOut, hx, hy, hz, hp, hq,
        hx.asymm, hy.asymm, hz.asymm, hp.asymm, hq.asymm]

/-! ## Claim theorems -/

/-- C2: `getModelRotation` implements a hand-enumerated rotation table: for
every view state and every input vector the result is a signed permutation
of the input (each input coordinate used exactly once); the 23 explicit
branch sign-patterns are pairwise distinct, so together with the untouched
base state ("Z up, X rotate 0") the table distinguishes 24 orientation
cases (6 up-axis choices times 4 rotations); and whenever the view-state
signs match a pattern, the result is that pattern's signed permutation. -/
theorem getModelRotation_signed_perm_table :
    (∀ x y z py pz iX iY iZ : ℚ,
      IsSignedPerm3 (iX, iY, iZ) (getModelRotation x y z py pz iX iY iZ)) ∧
    (rotationConds.Nodup ∧ rotationConds.length = 23) ∧
    (∀ s ∈ rotationConds, ∀ x y z py pz iX iY iZ : ℚ,
      condHolds s x y z py pz →
        getModelRotation x y z py pz iX iY iZ = rotationOut s (iX, iY, iZ)) :=
  ⟨getModelRotation_isSignedPerm, ⟨by decide, by decide⟩, getModelRotation_matches_table⟩

/-- C2 witness: the "Z up, X rotate 1" pattern applied to the concrete view
state `(-1, -1, -1, -1, 1)` and input `(1, 2, 3)`. -/
theorem getModelRotation_signed_perm_table_witness :
    ((true, true, true, true, false) ∈ rotationConds ∧
      condHolds (true, true, true, true, false) (-1) (-1) (-1) (-1) 1) ∧
    getModelRotation (-1) (-1) (-1) (-1) 1 1 2 3 =
      rotationOut (true, true, true, true, false) (1, 2, 3) := by
  have hc : condHolds (true, true, true, true, false) (-1) (-1) (-1) (-1) 1 := by
    refine ⟨?_, ?_, ?_, ?_, ?_⟩ <;> norm_num [signCond]
  exact ⟨⟨by decide, hc⟩,
    getModelRotation_signed_perm_table.2.2 _ (by decide) (-1) (-1) (-1) (-1) 1 1 2 3 hc⟩

/-- C7 counterexample: the claim asserts `equal` is not transitive, i.e.
that a triple `a, b, c` exists with `equal a b`, `equal b c` but not
`equal a c`; in fact rounding-based equality is transitive, so that
existence claim equals `False`. -/
theorem equal_transitivity_cex :
    (∃ a b c : ℚ, equal a b = true ∧ equal b c = true ∧ equal a c = false) = False := by
  apply eq_false
  rintro ⟨a, b, c, h1, h2, h3⟩
  have h1' : pyRound gRoundPrecision a = pyRound gRoundPrecision b := by
    simpa [equal] using h1
  have h2' : pyRound gRoundPrecision b = pyRound gRoundPrecision c := by
    simpa [equal] using h2
  have hac : equal a c = true := by
    simp [equal, h1'.trans h2']
  rw [hac] at h3
  simp at h3

/-- C7 amended: `equal iA iB` is true iff the two values round to the same
value at `gRoundPrecision = 2` decimal places; it is reflexive and
symmetric, and (contrary to the original claim) also transitive — an
equivalence relation. -/
theorem equal_rounding_equivalence :
    gRoundPrecision = 2 ∧
    (∀ a b : ℚ, equal a b = true ↔
      pyRound gRoundPrecision a = pyRound gRoundPrecision b) ∧
    (∀ a : ℚ, equal a a = true) ∧
    (∀ a b : ℚ, equal a b = equal b a) ∧
    (∀ a b c : ℚ, equal a b = true → equal b c = true → equal a c = true) := by
  refine ⟨rfl, ?_, ?_, ?_, ?_⟩
  · intro a b
    simp [equal]
  · intro a
    simp [equal]
  · intro a b
    simp only [equal, decide_eq_decide]
    exact eq_comm
  · intro a b c h1 h2
    have h1' : pyRound gRoundPrecision a = pyRound gRoundPrecision b := by
      simpa [equal] using h1
    have h2' : pyRound gRoundPrecision b = pyRound gRoundPrecision c := by
      simpa [equal] using h2
    simp [equal, h1'.trans h2']

/-- C7 witness: transitivity of `equal` applied at `1`, `1.004`, `1`. -/
theorem equal_rounding_equivalence_witness :
    equal 1 (1004/1000) = true ∧ equal (1004/1000) 1 = true ∧ equal 1 1 = true := by
  have e1 : pyRound 2 1 = 1 := by
    rw [pyRound_eq_of_floor 2 1 100 (by norm_num) (by norm_num) (by norm_num)]
    norm_num
  have e2 : pyRound 2 (1004/1000) = 1 := by
    rw [pyRound_eq_of_floor 2 (1004/1000) 100 (by norm_num) (by norm_num) (by norm_num)]
    norm_num
  have h1 : equal 1 (1004/1000) = true := by
    simp [equal, gRoundPrecision, e1, e2]
  have h2 : equal (1004/1000) 1 = true := by
    simp [equal, gRoundPrecision, e1, e2]
  exact ⟨h1, h2, equal_rounding_equivalence.2.2.2.2 1 (1004/1000) 1 h1 h2⟩

/-- C8: `getVertexAxisCross(iA, iB)` returns the absolute difference
`|iB - iA|` on all real inputs (the case analysis is exhaustive and the
fall-through 0 is reached exactly at `iA = iB`); consequently it is
symmetric and non-negative. -/
theorem getVertexAxisCross_spec :
    (∀ a b : ℚ, getVertexAxisCross a b = |b - a|) ∧
    (∀ a b : ℚ, getVertexAxisCross a b = getVertexAxisCross b a) ∧
    (∀ a b : ℚ, 0 ≤ getVertexAxisCross a b) ∧
    (∀ a : ℚ, getVertexAxisCross a a = 0) :=
  ⟨getVertexAxisCross_eq_abs,
   fun a b => by rw [getVertexAxisCross_eq_abs, getVertexAxisCross_eq_abs, abs_sub_comm],
   fun a b => by rw [getVertexAxisCross_eq_abs]; exact abs_nonneg _,
   fun a => by rw [getVertexAxisCross_eq_abs]; simp⟩

/-- Non-tie evaluation rule for `pyRoundHalfEven`: when `z` bounds `q` from
below with fractional part under one half, the result is `z`. -/
theorem pyRoundHalfEven_eval (q : ℚ) (z : ℤ)
    (h1 : (z : ℚ) ≤ q) (h2 : q < (z : ℚ) + 1) (h3 : q - (z : ℚ) < 1/2) :
    pyRoundHalfEven q = z := by
  have hf : ⌊q⌋ = z := by
    rw [Int.floor_eq_iff]
    exact ⟨h1, h2⟩
  unfold pyRoundHalfEven
  rw [hf, if_pos h3]

/-- The 1-based search loop is the 0-based first-match position shifted by
the start index. -/
theorem findKeyIndex_firstMatch (p : BoundBox → Bool) (k : ℤ) (l : List BoundBox) :
    findKeyIndex p k l =
      (match firstMatchIdx p l with
       | some n => k + n
       | none => -1) := by
  induction l generalizing k with
  | nil => rfl
  | cons e rest ih =>
    simp only [findKeyIndex, firstMatchIdx]
    by_cases hp : p e
    · simp [hp]
    · simp only [hp, Bool.false_eq_true, if_false]
      rw [ih]
      rcases h : firstMatchIdx p rest with _ | n <;> simp [h]
      ring

/-- The inline normalization string of `getFaceIndexByKey` is the
`normalizeBoundBox` function, character for character. -/
theorem faceKeyString_eq_normalize : faceKeyString = normalizeBoundBox := rfl

/-- Concrete normalization value used by the C3 counterexample. -/
theorem normalizeBoundBox_cex_eval :
    normalizeBoundBox ⟨2/5, 0, 0, 2/5, 0, 0⟩ = "BoundBox (0, 0, 0, 0, 0, 0)" := by
  have r1 : pyRoundHalfEven (2/5) = 0 :=
    pyRoundHalfEven_eval _ 0 (by norm_num) (by norm_num) (by norm_num)
  have r0 : pyRoundHalfEven 0 = 0 :=
    pyRoundHalfEven_eval _ 0 (by norm_num) (by norm_num) (by norm_num)
  simp only [normalizeBoundBox, r1, r0]
  decide

/-- Concrete host-representation value used by the C3 counterexample. -/
theorem pyStrBoundBox_cex_eval :
    pyStrBoundBox ⟨2/5, 0, 0, 2/5, 0, 0⟩ = "BoundBox (0.4, 0, 0, 0.4, 0, 0)" := by
  have f1 : ⌊(2/5 : ℚ)⌋ = 0 := by
    rw [Int.floor_eq_iff]
    norm_num
  have f2 : ⌊(0 : ℚ)⌋ = 0 := by
    simp
  have f3 : ⌊(2/5 : ℚ) * 10⌋ = 4 := by
    rw [Int.floor_eq_iff]
    norm_num
  have d1 : ratFracDigits 12 (2/5) = "4" := by
    rw [ratFracDigits, if_neg (by norm_num), f3]
    show toString (4 : ℤ) ++ ratFracDigits 11 (2/5 * 10 - ((4 : ℤ) : ℚ)) = "4"
    have e0 : (2/5 : ℚ) * 10 - ((4 : ℤ) : ℚ) = 0 := by norm_num
    rw [e0, ratFracDigits, if_pos rfl]
    decide
  have h1 : ratRepr (2/5) = "0.4" := by
    rw [ratRepr, if_neg (by norm_num), ratReprOfNonneg, f1]
    have e1 : (2/5 : ℚ) - ((0 : ℤ) : ℚ) = 2/5 := by norm_num
    rw [e1, if_neg (by norm_num), d1]
    decide
  have h0 : ratRepr 0 = "0" := by
    rw [ratRepr, if_neg (by norm_num), ratReprOfNonneg, f2]
    have e2 : (0 : ℚ) - ((0 : ℤ) : ℚ) = 0 := by norm_num
    rw [e2, if_pos rfl]
    decide
  simp only [pyStrBoundBox, h1, h0]
  decide

/-- C3 counterexample: for the bounding box `(0.4, 0, 0, 0.4, 0, 0)` the
inline normalization string does equal `normalizeBoundBox`'s output, and the
edge lookup finds the identical edge at index 1 — but `getFaceIndexByKey`
returns `-1` on the identical face, because it compares against the raw
host string of the key instead of its normalization.  So the face lookup
does not apply the same rounded-comparison rule as the edge lookup. -/
theorem getFaceIndexByKey_raw_key_cex :
    faceKeyString ⟨2/5, 0, 0, 2/5, 0, 0⟩ = normalizeBoundBox ⟨2/5, 0, 0, 2/5, 0, 0⟩ ∧
    getEdgeIndexByKey [⟨2/5, 0, 0, 2/5, 0, 0⟩] ⟨2/5, 0, 0, 2/5, 0, 0⟩ = 1 ∧
    getFaceIndexByKey [⟨2/5, 0, 0, 2/5, 0, 0⟩] ⟨2/5, 0, 0, 2/5, 0, 0⟩ = -1 := by
  refine ⟨rfl, ?_, ?_⟩
  · simp [getEdgeIndexByKey, findKeyIndex]
  · have hn : faceKeyString ⟨2/5, 0, 0, 2/5, 0, 0⟩ = "BoundBox (0, 0, 0, 0, 0, 0)" := by
      rw [faceKeyString_eq_normalize]
      exact normalizeBoundBox_cex_eval
    simp only [getFaceIndexByKey, findKeyIndex, hn, pyStrBoundBox_cex_eval]
    decide

/-- C3 amended: `getEdgeIndexByKey` returns the 1-based index of the first
edge whose normalized bounding box equals the key's normalization (`-1`
when none matches); the normalization string built inline by
`getFaceIndexByKey` is character-for-character `normalizeBoundBox`'s
output; but `getFaceIndexByKey` compares it against the raw host string of
the key, so it applies the same rounded-comparison rule as the edge lookup
only when the key's host string coincides with its normalization (e.g.
integral coordinates). -/
theorem edge_face_key_lookup_spec :
    (∀ (objEdges : List BoundBox) (key : BoundBox),
      getEdgeIndexByKey objEdges key = edgeIndexSpec objEdges key) ∧
    (∀ bb : BoundBox, faceKeyString bb = normalizeBoundBox bb) ∧
    (∀ (objFaces : List BoundBox) (key : BoundBox),
      pyStrBoundBox key = normalizeBoundBox key →
        getFaceIndexByKey objFaces key = getEdgeIndexByKey objFaces key) := by
  refine ⟨?_, fun _ => rfl, ?_⟩
  · intro objEdges key
    unfold getEdgeIndexByKey edgeIndexSpec
    rw [findKeyIndex_firstMatch]
    rcases h : firstMatchIdx
        (fun e => decide (normalizeBoundBox e = normalizeBoundBox key)) objEdges with _ | n <;>
      simp [h]
    ring
  · intro objFaces key h
    unfold getFaceIndexByKey getEdgeIndexByKey
    simp only [faceKeyString_eq_normalize, h]

/-- C3 witness: the same-rule implication applied to an integral-coordinate
key, whose host string equals its normalization. -/
theorem edge_face_key_lookup_spec_witness :
    pyStrBoundBox ⟨0, 0, 0, 0, 0, 0⟩ = normalizeBoundBox ⟨0, 0, 0, 0, 0, 0⟩ ∧
    getFaceIndexByKey [⟨0, 0, 0, 0, 0, 0⟩] ⟨0, 0, 0, 0, 0, 0⟩ =
      getEdgeIndexByKey [⟨0, 0, 0, 0, 0, 0⟩] ⟨0, 0, 0, 0, 0, 0⟩ := by
  have f2 : ⌊(0 : ℚ)⌋ = 0 := by simp
  have h0 : ratRepr 0 = "0" := by
    rw [ratRepr, if_neg (by norm_num), ratReprOfNonneg, f2]
    have e2 : (0 : ℚ) - ((0 : ℤ) : ℚ) = 0 := by norm_num
    rw [e2, if_pos rfl]
    decide
  have r0 : pyRoundHalfEven 0 = 0 :=
    pyRoundHalfEven_eval _ 0 (by norm_num) (by norm_num) (by norm_num)
  have key : pyStrBoundBox ⟨0, 0, 0, 0, 0, 0⟩ = normalizeBoundBox ⟨0, 0, 0, 0, 0, 0⟩ := by
    simp only [pyStrBoundBox, normalizeBoundBox, h0, r0]
    decide
  exact ⟨key, edge_face_key_lookup_spec.2.2 _ _ key⟩

/-- Inserting into a list is a permutation of consing. -/
theorem insertSorted_perm (a : ℚ) (l : List ℚ) : List.Perm (insertSorted a l) (a :: l) := by
  induction l with
  | nil => exact List.Perm.refl _
  | cons b t ih =>
    unfold insertSorted
    by_cases h : a ≤ b
    · simp [h]
    · simp only [h, if_false]
      exact (ih.cons b).trans (List.Perm.swap a b t)

/-- `sortRats` permutes its input. -/
theorem sortRats_perm (l : List ℚ) : List.Perm (sortRats l) l := by
  induction l with
  | nil => exact List.Perm.refl _
  | cons a t ih => exact (insertSorted_perm a (sortRats t)).trans (ih.cons a)

/-- Sorting three rationals yields an explicit ascending triple. -/
theorem sortRats_three (a b c : ℚ) :
    ∃ s0 s1 s2 : ℚ, sortRats [a, b, c] = [s0, s1, s2] ∧ s0 ≤ s1 ∧ s1 ≤ s2 := by
  show ∃ s0 s1 s2 : ℚ, insertSorted a (insertSorted b [c]) = [s0, s1, s2] ∧ s0 ≤ s1 ∧ s1 ≤ s2
  by_cases h1 : b ≤ c
  · by_cases h2 : a ≤ b
    · exact ⟨a, b, c, by simp [insertSorted, h1, h2], h2, h1⟩
    · by_cases h3 : a ≤ c
      · exact ⟨b, a, c, by simp [insertSorted, h1, h2, h3], by linarith, h3⟩
      · exact ⟨b, c, a, by simp [insertSorted, h1, h2, h3], h1, by linarith⟩
  · by_cases h2 : a ≤ c
    · exact ⟨a, c, b, by simp [insertSorted, h1, h2], h2, by linarith⟩
    · by_cases h3 : a ≤ b
      · exact ⟨c, a, b, by simp [insertSorted, h1, h2, h3], by linarith, h3⟩
      · exact ⟨c, b, a, by simp [insertSorted, h1, h2, h3], by linarith, by linarith⟩

/-- `[z, y, x]` is a permutation of `[x, y, z]`. -/
theorem perm3_210 (x y z : ℚ) : List.Perm [z, y, x] [x, y, z] :=
  (List.Perm.swap y z [x]).trans ((List.Perm.cons y (List.Perm.swap x z [])).trans
    (List.Perm.swap x y [z]))

/-- `[y, z, x]` is a permutation of `[x, y, z]`. -/
theorem perm3_120 (x y z : ℚ) : List.Perm [y, z, x] [x, y, z] :=
  (List.Perm.cons y (List.Perm.swap x z [])).trans (List.Perm.swap x y [z])

/-- `[z, x, y]` is a permutation of `[x, y, z]`. -/
theorem perm3_201 (x y z : ℚ) : List.Perm [z, x, y] [x, y, z] :=
  (List.Perm.swap x z [y]).trans (List.Perm.cons x (List.Perm.swap y z []))

/-- `[y, x, z]` is a permutation of `[x, y, z]`. -/
theorem perm3_102 (x y z : ℚ) : List.Perm [y, x, z] [x, y, z] :=
  List.Perm.swap x y [z]

/-- `[x, z, y]` is a permutation of `[x, y, z]`. -/
theorem perm3_021 (x y z : ℚ) : List.Perm [x, z, y] [x, y, z] :=
  List.Perm.cons x (List.Perm.swap y z [])

/-- C9: for every object that yields three sizes and every direction in
`{"XY", "YX", "XZ", "ZX", "YZ", "ZY"}`, `sizesToCubePanel` returns the
sorted sizes arranged in the direction's fixed pattern (e.g. `"XY"` gives
largest, middle, smallest), and the returned multiset of values equals the
multiset of the object's three sizes. -/
theorem sizesToCubePanel_spec :
    ∀ (obj : WObj) (iType : String) (sizes : List ℚ),
      rawSizes obj = some sizes →
      iType ∈ ["XY", "YX", "XZ", "ZX", "YZ", "ZY"] →
      ∃ s0 s1 s2 : ℚ,
        sortRats sizes = [s0, s1, s2] ∧ s0 ≤ s1 ∧ s1 ≤ s2 ∧
        sizesToCubePanel obj iType = some (cubeArrangement iType s0 s1 s2) ∧
        (cubeArrangement iType s0 s1 s2 : Multiset ℚ) = (sizes : Multiset ℚ) := by
  intro obj iType sizes hraw hmem
  have h3 : ∃ a b c : ℚ, sizes = [a, b, c] := by
    cases obj with
    | box l w h =>
      refine ⟨l, w, h, ?_⟩
      simp only [rawSizes, Option.some_inj] at hraw
      exact hraw.symm
    | pad cs len =>
      rcases hx : lastNamed cs "SizeX" with _ | sx <;>
        rcases hy : lastNamed cs "SizeY" with _ | sy <;>
          simp [rawSizes, hx, hy] at hraw
      exact ⟨len, sx, sy, hraw.symm⟩
    | custom bl bw bh =>
      refine ⟨bl, bw, bh, ?_⟩
      simp only [rawSizes, Option.some_inj] at hraw
      exact hraw.symm
  obtain ⟨a, b, c, rfl⟩ := h3
  obtain ⟨s0, s1, s2, hsort, h01, h12⟩ := sortRats_three a b c
  have hperm : List.Perm [s0, s1, s2] ([a, b, c] : List ℚ) := hsort ▸ sortRats_perm [a, b, c]
  fin_cases hmem
  · exact ⟨s0, s1, s2, hsort, h01, h12,
      by simp [sizesToCubePanel, hraw, hsort, cubeArrangement],
      Multiset.coe_eq_coe.mpr ((perm3_210 s0 s1 s2).trans hperm)⟩
  · exact ⟨s0, s1, s2, hsort, h01, h12,
      by simp [sizesToCubePanel, hraw, hsort, cubeArrangement],
      Multiset.coe_eq_coe.mpr ((perm3_120 s0 s1 s2).trans hperm)⟩
  · exact ⟨s0, s1, s2, hsort, h01, h12,
      by simp [sizesToCubePanel, hraw, hsort, cubeArrangement],
      Multiset.coe_eq_coe.mpr ((perm3_201 s0 s1 s2).trans hperm)⟩
  · exact ⟨s0, s1, s2, hsort, h01, h12,
      by simp [sizesToCubePanel, hraw, hsort, cubeArrangement],
      Multiset.coe_eq_coe.mpr ((perm3_102 s0 s1 s2).trans hperm)⟩
  · exact ⟨s0, s1, s2, hsort, h01, h12,
      by simp [sizesToCubePanel, hraw, hsort, cubeArrangement],
      Multiset.coe_eq_coe.mpr ((perm3_021 s0 s1 s2).trans hperm)⟩
  · exact ⟨s0, s1, s2, hsort, h01, h12,
      by simp [sizesToCubePanel, hraw, hsort, cubeArrangement],
      Multiset.coe_eq_coe.mpr hperm⟩

/-- C9 witness: a default panel box `600 x 300 x 18` copied in direction
`"XY"`. -/
theorem sizesToCubePanel_spec_witness :
    rawSizes (WObj.box 600 300 18) = some [600, 300, 18] ∧
    ("XY" : String) ∈ ["XY", "YX", "XZ", "ZX", "YZ", "ZY"] ∧
    (∃ s0 s1 s2 : ℚ,
      sortRats [600, 300, 18] = [s0, s1, s2] ∧ s0 ≤ s1 ∧ s1 ≤ s2 ∧
      sizesToCubePanel (WObj.box 600 300 18) "XY" =
        some (cubeArrangement "XY" s0 s1 s2) ∧
      (cubeArrangement "XY" s0 s1 s2 : Multiset ℚ) = ([600, 300, 18] : List ℚ)) :=
  ⟨rfl, by decide,
    sizesToCubePanel_spec (WObj.box 600 300 18) "XY" [600, 300, 18] rfl (by decide)⟩

/-- C10: for every direction in the six, `panelDefault` adds exactly one
new `Part::Box` whose dimension values are `{600, 300, 18}`, with the
thickness `18` on the axis the direction name omits (Height for
`"XY"`/`"YX"`, Width for `"XZ"`/`"ZX"`, Length for `"YZ"`/`"ZY"`). -/
theorem panelDefault_creates_box :
    ∀ iType ∈ (["XY", "YX", "XZ", "ZX", "YZ", "ZY"] : List String), ∀ doc : Doc,
      ∃ p : DocObj,
        panelDefaultDoc doc iType = doc ++ [p] ∧
        p.otype = "Part::Box" ∧
        ([p.dims.1, p.dims.2.1, p.dims.2.2] : Multiset ℚ) = ([600, 300, 18] : List ℚ) ∧
        ((iType = "XY" ∨ iType = "YX") → p.dims.2.2 = 18) ∧
        ((iType = "XZ" ∨ iType = "ZX") → p.dims.2.1 = 18) ∧
        ((iType = "YZ" ∨ iType = "ZY") → p.dims.1 = 18) := by
  intro iType hmem doc
  fin_cases hmem
  · exact ⟨⟨"panel" ++ "XY", "Part::Box", (600, 300, 18)⟩, rfl, rfl,
      Multiset.coe_eq_coe.mpr (List.Perm.refl _),
      fun _ => rfl, fun h => absurd h (by decide), fun h => absurd h (by decide)⟩
  · exact ⟨⟨"panel" ++ "YX", "Part::Box", (300, 600, 18)⟩, rfl, rfl,
      Multiset.coe_eq_coe.mpr (perm3_102 600 300 18),
      fun _ => rfl, fun h => absurd h (by decide), fun h => absurd h (by decide)⟩
  · exact ⟨⟨"panel" ++ "XZ", "Part::Box", (600, 18, 300)⟩, rfl, rfl,
      Multiset.coe_eq_coe.mpr (perm3_021 600 300 18),
      fun h => absurd h (by decide), fun _ => rfl, fun h => absurd h (by decide)⟩
  · exact ⟨⟨"panel" ++ "ZX", "Part::Box", (300, 18, 600)⟩, rfl, rfl,
      Multiset.coe_eq_coe.mpr (perm3_120 600 300 18),
      fun h => absurd h (by decide), fun _ => rfl, fun h => absurd h (by decide)⟩
  · exact ⟨⟨"panel" ++ "YZ", "Part::Box", (18, 600, 300)⟩, rfl, rfl,
      Multiset.coe_eq_coe.mpr (perm3_201 600 300 18),
      fun h => absurd h (by decide), fun h => absurd h (by decide), fun _ => rfl⟩
  · exact ⟨⟨"panel" ++ "ZY", "Part::Box", (18, 300, 600)⟩, rfl, rfl,
      Multiset.coe_eq_coe.mpr (perm3_210 600 300 18),
      fun h => absurd h (by decide), fun h => absurd h (by decide), fun _ => rfl⟩

/-- C10 witness: `panelDefault("XY")` on the empty document. -/
theorem panelDefault_creates_box_witness :
    ("XY" : String) ∈ (["XY", "YX", "XZ", "ZX", "YZ", "ZY"] : List String) ∧
    (∃ p : DocObj,
      panelDefaultDoc [] "XY" = [] ++ [p] ∧
      p.otype = "Part::Box" ∧
      ([p.dims.1, p.dims.2.1, p.dims.2.2] : Multiset ℚ) = ([600, 300, 18] : List ℚ) ∧
      ((("XY" : String) = "XY" ∨ ("XY" : String) = "YX") → p.dims.2.2 = 18) ∧
      ((("XY" : String) = "XZ" ∨ ("XY" : String) = "ZX") → p.dims.2.1 = 18) ∧
      ((("XY" : String) = "YZ" ∨ ("XY" : String) = "ZY") → p.dims.1 = 18)) :=
  ⟨by decide, panelDefault_creates_box "XY" (by decide) []⟩

/-- C4 counterexample: `panel2pad` on a document containing the selected
`Part::Box` removes that pre-existing object — its name is present before
the call and absent afterwards. -/
theorem panel2pad_removes_selected_cex :
    "Cube" ∈ namesOfDoc [⟨"Cube", "Part::Box", (600, 300, 18)⟩] ∧
    "Cube" ∉ namesOfDoc
      (panel2padDoc [⟨"Cube", "Part::Box", (600, 300, 18)⟩]
        "Cube" "Part" "Body" "Sketch" "Pad") := by
  constructor
  · decide
  · decide

/-- C4 amended: operations may destroy pre-existing objects — the
replace-style operations (`panel2pad`, `panel2profile`, `panel2frame`,
`panel2link`, `makeHoles` on a box, `jointCustom`) remove the object they
replace.  `panel2pad` removes exactly the selected object: every other
pre-existing object survives, anything it removes is named by the
selection, and the only additions are the four host-instantiated
Part/Body/Sketch/Pad objects. -/
theorem panel2pad_frame :
    ∀ (doc : Doc) (selName partName bodyName sketchName padName : String),
      (∀ ob ∈ doc, ob.name ≠ selName →
        ob ∈ panel2padDoc doc selName partName bodyName sketchName padName) ∧
      (∀ ob ∈ doc, ob.name = selName →
        ob ∉ panel2padDoc doc selName partName bodyName sketchName padName) ∧
      (∀ ob ∈ panel2padDoc doc selName partName bodyName sketchName padName,
        ob ∈ doc ∨
        ob ∈ [(⟨partName, "App::Part", (0, 0, 0)⟩ : DocObj),
              ⟨bodyName, "PartDesign::Body", (0, 0, 0)⟩,
              ⟨sketchName, "Sketcher::SketchObject", (0, 0, 0)⟩,
              ⟨padName, "PartDesign::Pad", (0, 0, 0)⟩]) := by
  intro doc selName partName bodyName sketchName padName
  refine ⟨?_, ?_, ?_⟩
  · intro ob hob hne
    exact List.mem_filter.mpr ⟨List.mem_append_left _ hob, decide_eq_true hne⟩
  · intro ob hob heq hmem
    have := (List.mem_filter.mp hmem).2
    rw [decide_eq_true_eq] at this
    exact this heq
  · intro ob hmem
    have h := (List.mem_filter.mp hmem).1
    rcases List.mem_append.mp h with h | h
    · exact Or.inl h
    · exact Or.inr h

/-- C4 witness: on a two-object document, `panel2pad` of `"Cube"` keeps the
other pre-existing object. -/
theorem panel2pad_frame_witness :
    (⟨"Other", "Part::Box", (1, 1, 1)⟩ : DocObj) ∈
      ([⟨"Cube", "Part::Box", (600, 300, 18)⟩, ⟨"Other", "Part::Box", (1, 1, 1)⟩] : Doc) ∧
    (⟨"Other", "Part::Box", (1, 1, 1)⟩ : DocObj) ∈
      panel2padDoc [⟨"Cube", "Part::Box", (600, 300, 18)⟩, ⟨"Other", "Part::Box", (1, 1, 1)⟩]
        "Cube" "Part" "Body" "Sketch" "Pad" := by
  have hm : (⟨"Other", "Part::Box", (1, 1, 1)⟩ : DocObj) ∈
      ([⟨"Cube", "Part::Box", (600, 300, 18)⟩, ⟨"Other", "Part::Box", (1, 1, 1)⟩] : Doc) := by
    simp
  exact ⟨hm,
    (panel2pad_frame _ "Cube" "Part" "Body" "Sketch" "Pad").1 _ hm (by decide)⟩

/-- C5 counterexample: `equal` is a function of the file that, at the
concrete input `(1, 2)`, merely returns a value and leaves the document
state completely unchanged — refuting "every function mutates the document
in place". -/
theorem equal_pure_cex :
    equalSt [⟨"Cube", "Part::Box", (600, 300, 18)⟩] 1 2 =
      (false, [⟨"Cube", "Part::Box", (600, 300, 18)⟩]) := by
  have e1 : pyRound 2 1 = 1 := by
    rw [pyRound_eq_of_floor 2 1 100 (by norm_num) (by norm_num) (by norm_num)]
    norm_num
  have e2 : pyRound 2 2 = 2 := by
    rw [pyRound_eq_of_floor 2 2 200 (by norm_num) (by norm_num) (by norm_num)]
    norm_num
  have hne : (1 : ℚ) ≠ 2 := by norm_num
  simp [equalSt, equal, gRoundPrecision, e1, e2, hne]

/-- C5 amended: the library mixes pure query helpers with mutating actions:
`equal` (likewise `normalizeBoundBox`, `getVertex`) returns a value with
the document unchanged on every input, while action functions such as
`panelDefault` always change the document (they add an object). -/
theorem query_pure_action_mutates :
    (∀ (doc : Doc) (a b : ℚ), equalSt doc a b = (equal a b, doc)) ∧
    (∀ (doc : Doc) (iType : String),
      (panelDefaultDoc doc iType).length = doc.length + 1) :=
  ⟨fun _ _ _ => rfl, fun doc iType => by simp [panelDefaultDoc]⟩

/-- Bodies contain no message emission: `runPrims` leaves `msgs`
unchanged. -/
theorem runPrims_msgs (o : ℕ → Bool) (l : List PrimStmt) (st : ExecSt) :
    (runPrims o l st).1.msgs = st.msgs := by
  induction l generalizing st with
  | nil => rfl
  | cons p rest ih =>
    simp only [runPrims]
    by_cases h : o st.pos <;> simp [h, ih]

/-- C1: every public entry point wraps its whole body in `try`/`except`:
for every oracle (i.e. whatever exception any host call raises, in any
document/selection state) the call never propagates an exception, and the
handler's only effect is showing the entry point's one static help message
(exactly when the body raised, nothing otherwise). -/
theorem entryPoints_catch_all :
    ∀ ep ∈ magicPanelsEntryPoints, ∀ (o : ℕ → Bool) (st : ExecSt),
      (runStmts o (entryStmts ep) st).2 = false ∧
      ((runPrims o ep.body st).2 = true →
        (runStmts o (entryStmts ep) st).1.msgs = st.msgs ++ [ep.errMsg]) ∧
      ((runPrims o ep.body st).2 = false →
        (runStmts o (entryStmts ep) st).1.msgs = st.msgs) := by
  intro ep _ o st
  refine ⟨?_, ?_, ?_⟩
  · by_cases h : (runPrims o ep.body st).2 <;> simp [entryStmts, runStmts, h]
  · intro h
    simp [entryStmts, runStmts, h, runPrims_msgs]
  · intro h
    simp [entryStmts, runStmts, h, runPrims_msgs]

/-- C1 witness: `jointCustom` under an oracle that raises on the first host
call still returns normally and shows exactly its static message. -/
theorem entryPoints_catch_all_witness :
    jointCustom ∈ magicPanelsEntryPoints ∧
    (runStmts (fun _ => true) (entryStmts jointCustom) ⟨0, [], []⟩).2 = false ∧
    (runStmts (fun _ => true) (entryStmts jointCustom) ⟨0, [], []⟩).1.msgs =
      [] ++ [jointCustom.errMsg] := by
  have hm : jointCustom ∈ magicPanelsEntryPoints := by
    simp [magicPanelsEntryPoints]
  have h := entryPoints_catch_all jointCustom hm (fun _ => true) ⟨0, [], []⟩
  exact ⟨hm, h.1, h.2.1 (by decide)⟩

/-- C6 counterexample: a successful run of `drillHoles` performs three
selection reads (`getSelection()[0]`, `getSelectionEx()[0]`,
`getSelection()`, lines 3130-3132), not exactly one. -/
theorem drillHoles_selection_reads_cex :
    countSelReads ((runStmts (fun _ => false) (entryStmts drillHoles) ⟨0, [], []⟩).1.trace) = 3 ∧
    1 < countSelReads ((runStmts (fun _ => false) (entryStmts drillHoles) ⟨0, [], []⟩).1.trace) := by
  constructor
  · decide
  · decide

/-- A step sequence without selection reads trivially keeps all its
selection reads before its mutations. -/
theorem noSelRead_precede (l : List PrimStmt) (h : PrimStmt.selRead ∉ l) :
    selReadsPrecedeMut l = true := by
  induction l with
  | nil => rfl
  | cons p rest ih =>
    simp only [selReadsPrecedeMut]
    by_cases hp : p = PrimStmt.docMut
    · rw [if_pos hp]
      have hc : rest.contains PrimStmt.selRead = false := by
        simpa using fun hm => h (List.mem_cons_of_mem _ hm)
      rw [hc]
      rfl
    · rw [if_neg hp]
      exact ih (fun hm => h (List.mem_cons_of_mem _ hm))

/-- A mutation-free prefix followed by a selection-read-free suffix keeps
all selection reads before the first mutation. -/
theorem selReadsPrecedeMut_parts (l1 l2 : List PrimStmt)
    (h1 : PrimStmt.docMut ∉ l1) (h2 : PrimStmt.selRead ∉ l2) :
    selReadsPrecedeMut (l1 ++ l2) = true := by
  induction l1 with
  | nil => simpa using noSelRead_precede l2 h2
  | cons p t ih =>
    have hp : p ≠ PrimStmt.docMut := fun e => h1 (e ▸ List.mem_cons_self _ _)
    simp only [List.cons_append, selReadsPrecedeMut]
    rw [if_neg hp]
    exact ih (fun hm => h1 (List.mem_cons_of_mem _ hm))

/-- The second loop of `panel2frame` performs no selection read, however
many times it runs. -/
theorem countSelReads_panel2frameLoop (n : ℕ) :
    countSelReads (List.flatten (List.replicate n panel2frameLoop)) = 0 := by
  induction n with
  | zero => rfl
  | succ k ih =>
    simp only [List.replicate_succ, List.flatten_cons, countSelReads,
      List.count_append] at *
    simp [ih]
    decide

/-- For every selection size, `panel2frame`'s selection reads all precede
its first document mutation. -/
theorem panel2frameBody_precede (n : ℕ) :
    selReadsPrecedeMut (panel2frameBody n) = true := by
  apply selReadsPrecedeMut_parts
  · intro hm
    rcases List.mem_append.mp hm with hm | hm
    · simp at hm
    · rw [List.mem_replicate] at hm
      exact absurd hm.2 (by decide)
  · intro hm
    rcases List.mem_flatten.mp hm with ⟨l, hl, hml⟩
    rw [List.mem_replicate] at hl
    rw [hl.2] at hml
    simp [panel2frameLoop] at hml

/-- `panel2frame` reads the selection once per selected object plus once up
front: `1 + n` reads for `n` selected objects. -/
theorem panel2frameBody_count (n : ℕ) :
    countSelReads (panel2frameBody n) = n + 1 := by
  have hA : List.count PrimStmt.selRead [PrimStmt.selRead, PrimStmt.condRaise] = 1 := by
    decide
  have h := countSelReads_panel2frameLoop n
  simp only [countSelReads] at h
  simp only [panel2frameBody, countSelReads, List.count_append, hA,
    List.count_replicate_self, h]
  omega

/-- C6 amended: the number of selection queries per invocation is not
exactly one — it can even depend on the selection: `panel2frame` reads the
selection `1 + n` times for `n` selected objects (once per object in its
first loop, lines 2971-2974), `drillHoles` three times, `panelDefault` not
at all — but every selection read happens before the operation's first
document mutation (for every selection size in `panel2frame`'s case), and
the selection is not retained across invocations: each body re-queries it
(`magicCut` additionally clears the selection at the end — a write, not a
read). -/
theorem selection_reads_before_mutations :
    (∀ ep ∈ magicPanelsEntryPoints, selReadsPrecedeMut ep.body = true) ∧
    (∀ n : ℕ, selReadsPrecedeMut (panel2frameBody n) = true ∧
      countSelReads (panel2frameBody n) = n + 1) ∧
    panel2frame.body = panel2frameBody 2 :=
  ⟨by intro ep h; fin_cases h <;> decide,
   fun n => ⟨panel2frameBody_precede n, panel2frameBody_count n⟩,
   rfl⟩

/-- C6 witness: the discipline applied to `drillHoles`, and the read count
of `panel2frame` with five selected objects. -/
theorem selection_reads_before_mutations_witness :
    drillHoles ∈ magicPanelsEntryPoints ∧
    selReadsPrecedeMut drillHoles.body = true ∧
    countSelReads (panel2frameBody 5) = 5 + 1 := by
  have hm : drillHoles ∈ magicPanelsEntryPoints := by
    simp [magicPanelsEntryPoints]
  exact ⟨hm, selection_reads_before_mutations.1 drillHoles hm,
    (selection_reads_before_mutations.2.1 5).2⟩
